import Mathlib

/-!
Shallow embedding of the Conevent platform (Express + MongoDB web application):
the auth/session flow (`auth.controller.js`, `jwt.js`, `sendToken.js`,
`user.model.js`) and the notification subsystem as given by the code in
`server/docs/NOTIFICATION_SYSTEM.md` (`socket.config.js`,
`notification.service.js`, `notification.routes.js`,
`application.controller.js`).

Document stores are modelled as lists of records; MongoDB update operations
(`findByIdAndUpdate`, `findOneAndUpdate`, `updateMany`) become pure functions
on those lists.  `findOneAndUpdate`/`findByIdAndUpdate` update the first
matching document, `updateMany` updates every matching document.  bcrypt
comparison and JWT verification are abstracted as function parameters, since
they are opaque library calls.
-/

set_option maxHeartbeats 1000000

namespace Conevent

/-- A user document (`user.model.js`): `email` unique, optional
`passwordHash` and `googleId`, `role` in `user`/`admin`, `isActive`
defaulting to true. -/
structure User where
  uid : Nat
  email : String
  passwordHash : Option String
  googleId : Option String
  name : String
  bio : String
  role : String
  isActive : Bool
deriving DecidableEq

/-- A student document with the `interestedUniversities` field added by
Step 2 of `NOTIFICATION_SYSTEM.md`. -/
structure Student where
  sid : Nat
  name : String
  interestedUniversities : List Nat
deriving DecidableEq

/-- A university document (referenced by `notifyNewEvent`). -/
structure University where
  uivid : Nat
  name : String
deriving DecidableEq

/-- An event document: owning university, title. -/
structure Event where
  eid : Nat
  universityId : Nat
  title : String
deriving DecidableEq

/-- An application document: student/event references plus a status string
(`pending`/`accepted`/`rejected`). -/
structure Application where
  aid : Nat
  eventId : Nat
  studentId : Nat
  status : String
deriving DecidableEq

/-- A notification document (`notification.model.js`): recipient reference and
kind, type tag, title, message, optional data references, read flag, and the
`createdAt` timestamp added by `timestamps: true`. -/
structure Notification where
  nid : Nat
  recipientId : Nat
  recipientType : String
  ntype : String
  title : String
  message : String
  dataEventId : Option Nat
  dataApplicationId : Option Nat
  dataUniversityId : Option Nat
  dataStudentId : Option Nat
  isRead : Bool
  createdAt : Nat
deriving DecidableEq

/-! ### Auth: login (`auth.controller.js` `login`) -/

/-- Result of a login request: `missingFields` is the 400 "Please provide
email and password" error, `invalidCredentials` the 401 "Invalid
credentials" error, `accountDeactivated` the 401 "Account is deactivated"
error, and `ok` carries the authenticated user. -/
inductive LoginResult where
  | missingFields
  | invalidCredentials
  | accountDeactivated
  | ok (u : User)
deriving DecidableEq

/-- The `login` handler: reject empty email/password (JS falsiness of the
destructured body fields), look the account up by email, fail when absent or
when no password hash is stored, then when the account is inactive, then when
bcrypt comparison (`bcryptCompare`) fails; otherwise return the account.  The
check order is exactly that of the source. -/
def login (bcryptCompare : String → String → Bool) (users : List User)
    (email password : String) : LoginResult :=
  if email == "" || password == "" then .missingFields
  else
    match users.find? (fun u => u.email == email) with
    | none => .invalidCredentials
    | some u =>
      match u.passwordHash with
      | none => .invalidCredentials
      | some h =>
        if u.isActive == false then .accountDeactivated
        else if bcryptCompare password h == false then .invalidCredentials
        else .ok u

/-- The account `User.findOne(\x7b email \x7d)` resolves: the first document
with that email (unique in the database). -/
def accountFor (users : List User) (email : String) : Option User :=
  users.find? (fun u => u.email == email)

/-- Whether the supplied password matches the stored hash; an account with no
stored hash matches nothing. -/
def storedHashMatches (bcryptCompare : String → String → Bool) (password : String)
    (u : User) : Bool :=
  match u.passwordHash with
  | some h => bcryptCompare password h
  | none => false

/-! ### Auth: session cookie (`sendToken.js`) and JWT (`jwt.js`) -/

/-- The options `sendTokenCookie` passes to `res.cookie`. -/
structure CookieOptions where
  httpOnly : Bool
  maxAge : Nat
  secure : Bool
  sameSite : String
deriving DecidableEq

/-- Cookie options set by `sendTokenCookie`: HTTP-only, 7 days in
milliseconds, `secure` exactly when `config.env === 'production'`,
same-site lax. -/
def sendTokenCookie (env : String) : CookieOptions :=
  { httpOnly := true
    maxAge := 7 * 24 * 60 * 60 * 1000
    secure := env == "production"
    sameSite := "lax" }

/-- The payload carried by a session token (`sendUserResponse`): user id,
account type, role. -/
structure JwtPayload where
  id : Nat
  accountType : String
  role : String
deriving DecidableEq

/-- The `verifyToken` wrapper in `jwt.js`: `jwt.verify` either returns a
decoded payload or throws (expired/malformed); the wrapper catches every
exception and returns null, here `none`.  The underlying library call is
abstracted as `jwtVerify`. -/
def verifyToken (jwtVerify : String → Except String JwtPayload)
    (token : String) : Option JwtPayload :=
  match jwtVerify token with
  | .ok p => some p
  | .error _ => none

/-- Modelled from the spec: the auth middleware (`auth.middleware.js` is not
among the sources; only its callers are) verifies the session token and, on
failure, responds 401 without invoking the protected handler, so "an
invalid/expired session token on any protected route yields 401 with no side
effects".  The handler is a state transformer returning the new state and a
response status. -/
def runProtected {σ : Type} (jwtVerify : String → Except String JwtPayload)
    (token : String) (handler : JwtPayload → σ → σ × Nat) (s : σ) : σ × Nat :=
  match verifyToken jwtVerify token with
  | none => (s, 401)
  | some p => handler p s

/-! ### Auth: profile update (`auth.controller.js` `updateProfile`) -/

/-- A profile-update request body.  The handler destructures only `name` and
`bio`; any other supplied fields are present in the body but never read. -/
structure ProfileBody where
  name : Option String
  bio : Option String
  email : Option String
  role : Option String
  passwordHash : Option String
  isActive : Option Bool
deriving DecidableEq

/-- Apply the body to the caller's document: `if (name) user.name = name`
(JS truthiness: absent or empty string is skipped) and
`if (bio !== undefined) user.bio = bio`.  No other field is written, and the
pre-save hook skips re-hashing because `passwordHash` is unmodified. -/
def applyProfileUpdate (u : User) (body : ProfileBody) : User :=
  let u1 :=
    match body.name with
    | some n => if n == "" then u else { u with name := n }
    | none => u
  match body.bio with
  | some b => { u1 with bio := b }
  | none => u1

/-- The `updateProfile` handler: `User.findById(req.user._id)`, 404 when
absent (`none`), otherwise mutate name/bio on that document and save. -/
def updateProfile (users : List User) (callerId : Nat) (body : ProfileBody) :
    Option (List User) :=
  match users.find? (fun u => u.uid == callerId) with
  | none => none
  | some _ =>
    some (users.map (fun u =>
      if u.uid == callerId then applyProfileUpdate u body else u))

/-! ### User serialization (`user.model.js` `toJSON`) -/

/-- A JSON value, as far as the user document needs. -/
inductive JVal where
  | s (v : String)
  | b (v : Bool)
  | n (v : Nat)
deriving DecidableEq

/-- The plain object `this.toObject()` yields for a user document: every set
field as a key/value pair, plus the mongoose `__v` version key. -/
def userToObject (u : User) (v : Nat) : List (String × JVal) :=
  [("_id", JVal.n u.uid), ("email", JVal.s u.email)] ++
  (match u.passwordHash with
   | some h => [("passwordHash", JVal.s h)]
   | none => []) ++
  (match u.googleId with
   | some g => [("googleId", JVal.s g)]
   | none => []) ++
  [("name", JVal.s u.name), ("bio", JVal.s u.bio), ("role", JVal.s u.role),
   ("isActive", JVal.b u.isActive), ("__v", JVal.n v)]

/-- The `toJSON` method: take the plain object and delete the
`passwordHash` and `__v` keys. -/
def userToJSON (u : User) (v : Nat) : List (String × JVal) :=
  (userToObject u v).filter
    (fun kv => !(kv.1 == "passwordHash") && !(kv.1 == "__v"))

/-! ### Notification store operations (`socket.config.js`,
`notification.routes.js`) -/

/-- Set the read flag of a notification. -/
def setRead (n : Notification) : Notification :=
  { n with isRead := true }

/-- Update the first document matching `p` (the semantics of
`findByIdAndUpdate` / `findOneAndUpdate`, `_id` being unique). -/
def updateFirst (p : Notification → Bool) (f : Notification → Notification) :
    List Notification → List Notification
  | [] => []
  | n :: ns => if p n then f n :: ns else n :: updateFirst p f ns

/-- The socket `notification:read` handler:
`Notification.findByIdAndUpdate(notificationId, \x7b isRead: true \x7d)` —
the filter is the id alone, with no condition on the recipient or on the
connected user. -/
def socketMarkRead (store : List Notification) (notificationId : Nat) :
    List Notification :=
  updateFirst (fun n => n.nid == notificationId) setRead store

/-- The HTTP `PATCH /:id/read` handler:
`findOneAndUpdate(\x7b _id, recipientId: req.user._id \x7d, \x7b isRead: true \x7d)` —
the filter requires the caller to be the recipient. -/
def httpMarkRead (store : List Notification) (notificationId callerId : Nat) :
    List Notification :=
  updateFirst (fun n => n.nid == notificationId && n.recipientId == callerId)
    setRead store

/-- The socket `notifications:readAll` handler:
`updateMany(\x7b recipientId: socket.userId, isRead: false \x7d, \x7b isRead: true \x7d)`. -/
def socketMarkAllRead (store : List Notification) (userId : Nat) :
    List Notification :=
  store.map (fun n =>
    if n.recipientId == userId && n.isRead == false then setRead n else n)

/-- The HTTP `PATCH /read-all` handler, the same `updateMany` with
`req.user._id` as the recipient. -/
def httpMarkAllRead (store : List Notification) (callerId : Nat) :
    List Notification :=
  store.map (fun n =>
    if n.recipientId == callerId && n.isRead == false then setRead n else n)

/-- The per-document effect of the `readAll` update: set the read flag when
the document matches the `updateMany` filter, leave it alone otherwise. -/
def markAllFun (uid : Nat) (n : Notification) : Notification :=
  if n.recipientId == uid && n.isRead == false then setRead n else n

/-! ### Notification listing (`notification.service.js`
`getUserNotifications`, `notification.routes.js` unread count) -/

/-- Insert into a list kept descending by `createdAt`. -/
def insertDesc (n : Notification) : List Notification → List Notification
  | [] => [n]
  | m :: ms =>
    if m.createdAt ≤ n.createdAt then n :: m :: ms else m :: insertDesc n ms

/-- Sort descending by `createdAt` (the `.sort(\x7b createdAt: -1 \x7d)` of the
query). -/
def sortDesc : List Notification → List Notification
  | [] => []
  | n :: ns => insertDesc n (sortDesc ns)

/-- What `getUserNotifications` returns: the page of notifications, the
pagination block, and the unread count. -/
structure NotifListResult where
  items : List Notification
  page : Nat
  limit : Nat
  total : Nat
  pages : Nat
  unreadCount : Nat
deriving DecidableEq

/-- `getUserNotifications(userId, \x7b page, limit, unreadOnly \x7d)`: filter by
recipient (and unread when `unreadOnly`), sort by `createdAt` descending,
skip `(page-1)*limit` and take `limit`; `total` counts the filtered query,
`unreadCount` counts the recipient's unread documents independently of the
options; `pages` is `ceil(total/limit)`. -/
def getUserNotifications (store : List Notification) (userId : Nat)
    (page limit : Nat) (unreadOnly : Bool) : NotifListResult :=
  let q := fun n : Notification =>
    n.recipientId == userId && (!unreadOnly || n.isRead == false)
  let matched := store.filter q
  let pageItems := ((sortDesc matched).drop ((page - 1) * limit)).take limit
  let total := matched.length
  let unread := (store.filter
    (fun n => n.recipientId == userId && n.isRead == false)).length
  { items := pageItems, page := page, limit := limit, total := total,
    pages := (total + limit - 1) / limit, unreadCount := unread }

/-- The `GET /unread-count` handler:
`countDocuments(\x7b recipientId: req.user._id, isRead: false \x7d)`. -/
def unreadCountRoute (store : List Notification) (callerId : Nat) : Nat :=
  (store.filter (fun n => n.recipientId == callerId && n.isRead == false)).length

/-! ### Notification dispatch (`notification.service.js`) -/

/-- The notification payload a dispatcher passes to `create` (everything but
the recipient). -/
structure NotifData where
  ntype : String
  title : String
  message : String
  eventId : Option Nat
  applicationId : Option Nat
  universityId : Option Nat
  studentId : Option Nat
deriving DecidableEq

/-- `Notification.create`: a fresh document with the given id and timestamp,
unread. -/
def mkNotification (nid recipientId : Nat) (recipientType : String)
    (now : Nat) (nd : NotifData) : Notification :=
  { nid := nid, recipientId := recipientId, recipientType := recipientType,
    ntype := nd.ntype, title := nd.title, message := nd.message,
    dataEventId := nd.eventId, dataApplicationId := nd.applicationId,
    dataUniversityId := nd.universityId, dataStudentId := nd.studentId,
    isRead := false, createdAt := now }

/-- `sendToMultipleUsers(recipientIds, recipientType, notificationData)`:
one created notification per recipient id, in order; `base` threads the
fresh document ids the database assigns. -/
def sendToMultipleUsers (base now : Nat) (recipientIds : List Nat)
    (recipientType : String) (nd : NotifData) : List Notification :=
  match recipientIds with
  | [] => []
  | rid :: rest =>
    mkNotification base rid recipientType now nd ::
      sendToMultipleUsers (base + 1) now rest recipientType nd

/-- `notifyNewEvent(event, university)`: find the students whose
`interestedUniversities` contain the university, return early when there are
none, otherwise create one `new_event` notification per interested student
referencing the event and the university. -/
def notifyNewEvent (students : List Student) (base now : Nat) (event : Event)
    (university : University) : List Notification :=
  let interestedStudents := students.filter
    (fun s => s.interestedUniversities.contains university.uivid)
  if interestedStudents.length = 0 then []
  else
    let studentIds := interestedStudents.map (fun s => s.sid)
    sendToMultipleUsers base now studentIds "Student"
      { ntype := "new_event"
        title := "New Event Available"
        message := university.name ++ " has posted a new event: \"" ++
          event.title ++ "\""
        eventId := some event.eid
        applicationId := none
        universityId := some university.uivid
        studentId := none }

/-! ### Application status update (`application.controller.js`
`updateApplicationStatus`) -/

/-- Modelled from the spec and the repository README ("Enum validation for
status fields"; data model: status pending/accepted/rejected): the
Application schema, which is not among the sources, validates the status
against this enum when the document is saved. -/
def validStatus (s : String) : Bool :=
  s == "pending" || s == "accepted" || s == "rejected"

/-- Outcome of `updateApplicationStatus`: 404 when the application is
missing, a schema validation error when the status value is outside the
enum, otherwise success carrying the new application store and whether
`notifyApplicationStatus` was triggered (the
`status === 'accepted' || status === 'rejected'` guard). -/
inductive UpdateStatusResult where
  | notFound
  | validationFailed
  | ok (apps : List Application) (notified : Bool)
deriving DecidableEq

/-- The `updateApplicationStatus` handler: find the application by id (404
when absent), assign `application.status = status` unconditionally — there is
no check of the current status — save (schema enum validation), and notify
the student when the new status is accepted or rejected.  The event lookup of
the source only feeds the notification message text and is omitted. -/
def updateApplicationStatus (apps : List Application) (aid : Nat)
    (status : String) : UpdateStatusResult :=
  match apps.find? (fun a => a.aid == aid) with
  | none => .notFound
  | some _ =>
    if validStatus status then
      .ok (apps.map (fun a =>
            if a.aid == aid then { a with status := status } else a))
        (status == "accepted" || status == "rejected")
    else .validationFailed

/-- A store operation is read-only-flag-flipping and idempotent: it keeps the
store's length, every document is either untouched or has exactly its read
flag set, and running the operation twice equals running it once. -/
def ReadOnlyIdem (f : List Notification → List Notification) : Prop :=
  ∀ store, (f store).length = store.length ∧
    List.Forall₂ (fun n m => m = n ∨ m = setRead n) store (f store) ∧
    f (f store) = f store

theorem setRead_setRead (n : Notification) : setRead (setRead n) = setRead n :=
  rfl

theorem updateFirst_spec (p : Notification → Bool) (l : List Notification) :
    List.Forall₂ (fun a b => b = a ∨ (b = setRead a ∧ p a = true)) l
      (updateFirst p setRead l) := by
  induction l with
  | nil => exact List.Forall₂.nil
  | cons n ns ih =>
    by_cases hp : p n = true
    · simp only [updateFirst, if_pos hp]
      exact List.Forall₂.cons (Or.inr ⟨rfl, hp⟩)
        (List.forall₂_same.mpr fun a _ => Or.inl rfl)
    · simp only [updateFirst, if_neg hp]
      exact List.Forall₂.cons (Or.inl rfl) ih

theorem updateFirst_idem (p : Notification → Bool)
    (hp : ∀ n, p (setRead n) = p n) (l : List Notification) :
    updateFirst p setRead (updateFirst p setRead l) =
      updateFirst p setRead l := by
  induction l with
  | nil => rfl
  | cons n ns ih =>
    by_cases h : p n = true
    · simp [updateFirst, h, hp, setRead_setRead]
    · simp [updateFirst, h, ih]

theorem updateFirst_readOnlyIdem (p : Notification → Bool)
    (hp : ∀ n, p (setRead n) = p n) :
    ReadOnlyIdem (fun s => updateFirst p setRead s) := by
  intro store
  refine ⟨((updateFirst_spec p store).length_eq).symm, ?_, ?_⟩
  · exact (updateFirst_spec p store).imp
      (fun a b hab => hab.imp id And.left)
  · exact updateFirst_idem p hp store

theorem markAllFun_eq_self_or_setRead (uid : Nat) (a : Notification) :
    markAllFun uid a = a ∨ markAllFun uid a = setRead a := by
  unfold markAllFun
  by_cases h : (a.recipientId == uid && a.isRead == false) = true
  · exact Or.inr (if_pos h)
  · exact Or.inl (if_neg h)

theorem markAllFun_idem (uid : Nat) (a : Notification) :
    markAllFun uid (markAllFun uid a) = markAllFun uid a := by
  unfold markAllFun
  by_cases h : (a.recipientId == uid && a.isRead == false) = true
  · rw [if_pos h]
    have h2 :
        ¬(((setRead a).recipientId == uid && (setRead a).isRead == false)
          = true) := by
      simp [setRead]
    rw [if_neg h2]
  · rw [if_neg h, if_neg h]

theorem markAllMap_readOnlyIdem (uid : Nat) :
    ReadOnlyIdem (fun s => s.map (markAllFun uid)) := by
  intro store
  refine ⟨List.length_map store _, ?_, ?_⟩
  · rw [List.forall₂_map_right_iff]
    refine List.forall₂_same.mpr fun a _ => ?_
    exact (markAllFun_eq_self_or_setRead uid a).imp id id
  · simp only [List.map_map]
    exact List.map_congr_left fun a _ => by
      simpa [Function.comp] using markAllFun_idem uid a

theorem mem_updateFirst_of_find? (p : Notification → Bool)
    (l : List Notification) (n : Notification) (h : l.find? p = some n) :
    setRead n ∈ updateFirst p setRead l := by
  induction l with
  | nil => simp at h
  | cons m ms ih =>
    by_cases hp : p m = true
    · rw [List.find?_cons_of_pos _ hp] at h
      cases h
      simp only [updateFirst, if_pos hp]
      exact List.mem_cons_self _ _
    · rw [List.find?_cons_of_neg _ hp] at h
      simp only [updateFirst, if_neg hp]
      exact List.mem_cons_of_mem _ (ih h)

theorem sendToMultipleUsers_countP (now : Nat) (rt : String) (nd : NotifData)
    (sid : Nat) (ids : List Nat) :
    ∀ base : Nat,
      (sendToMultipleUsers base now ids rt nd).countP
          (fun n => n.recipientId == sid) =
        ids.countP (fun r => r == sid) := by
  induction ids with
  | nil => intro base; rfl
  | cons r rest ih =>
    intro base
    simp [sendToMultipleUsers, List.countP_cons, ih, mkNotification]

theorem sendToMultipleUsers_mem (now : Nat) (rt : String) (nd : NotifData)
    (ids : List Nat) :
    ∀ (base : Nat) (n : Notification),
      n ∈ sendToMultipleUsers base now ids rt nd →
        n.ntype = nd.ntype ∧ n.dataEventId = nd.eventId ∧
          n.recipientType = rt := by
  induction ids with
  | nil => intro base n h; simp [sendToMultipleUsers] at h
  | cons r rest ih =>
    intro base n h
    rcases List.mem_cons.mp h with rfl | h2
    · exact ⟨rfl, rfl, rfl⟩
    · exact ih (base + 1) n h2

theorem countP_filter_sid (p : Student → Bool) (l : List Student) :
    ∀ stu : Student, (l.map (fun s => s.sid)).Nodup → stu ∈ l →
      (l.filter p).countP (fun s => s.sid == stu.sid) =
        if p stu = true then 1 else 0 := by
  induction l with
  | nil => intro stu _ hmem; simp at hmem
  | cons a t ih =>
    intro stu hnodup hmem
    rw [List.map_cons, List.nodup_cons] at hnodup
    rcases List.mem_cons.mp hmem with rfl | hmt
    · have hzero : (t.filter p).countP (fun s => s.sid == stu.sid) = 0 := by
        rw [List.countP_eq_zero]
        intro s hs hbeq
        have hst : s ∈ t := (List.mem_filter.mp hs).1
        have hsid : s.sid = stu.sid := by simpa using hbeq
        exact hnodup.1 (hsid ▸ List.mem_map_of_mem _ hst)
      rw [List.filter_cons]
      by_cases hpa : p stu = true
      · simp [hpa, List.countP_cons, hzero]
      · simp [hpa, hzero]
    · have hne : (a.sid == stu.sid) = false := by
        refine beq_eq_false_iff_ne.mpr fun h => ?_
        exact hnodup.1 (h ▸ List.mem_map_of_mem _ hmt)
      rw [List.filter_cons]
      by_cases hpa : p a = true
      · simp [hpa, List.countP_cons, hne, ih stu hnodup.2 hmt]
      · simp [hpa, ih stu hnodup.2 hmt]

theorem applyProfileUpdate_frame (u : User) (body : ProfileBody) :
    (applyProfileUpdate u body).uid = u.uid ∧
    (applyProfileUpdate u body).email = u.email ∧
    (applyProfileUpdate u body).passwordHash = u.passwordHash ∧
    (applyProfileUpdate u body).googleId = u.googleId ∧
    (applyProfileUpdate u body).role = u.role ∧
    (applyProfileUpdate u body).isActive = u.isActive := by
  unfold applyProfileUpdate
  rcases body.name with _ | n <;> rcases body.bio with _ | b <;> simp <;>
    split <;> simp

/-! ### Claim theorems -/

/-- C1 counterexample: an application that is already `accepted` is updated
to `rejected` and the request succeeds (it even re-notifies), instead of
being rejected with the status left unchanged. -/
theorem c1_counterexample :
    updateApplicationStatus [⟨1, 10, 20, "accepted"⟩] 1 "rejected" =
      UpdateStatusResult.ok [⟨1, 10, 20, "rejected"⟩] true ∧
    ("rejected" : String) ≠ "accepted" := by
  constructor
  · decide
  · decide

/-- C1 (amended): `updateApplicationStatus` performs any enum-valid status
transition regardless of the application's current status: whenever the
application exists and the new status is in the enum, the update succeeds,
every stored application with that id gets the new status, and the student
is notified exactly when the new status is accepted or rejected.  There is
no check that the current status is pending. -/
theorem c1_amended (apps : List Application) (aid : Nat) (status : String)
    (app : Application)
    (hfind : apps.find? (fun a => a.aid == aid) = some app)
    (hvalid : validStatus status = true) :
    ∃ apps', updateApplicationStatus apps aid status =
        UpdateStatusResult.ok apps'
          (status == "accepted" || status == "rejected") ∧
      apps'.length = apps.length ∧
      ∀ a ∈ apps', a.aid = aid → a.status = status := by
  refine ⟨apps.map (fun a =>
      if a.aid == aid then { a with status := status } else a), ?_, ?_, ?_⟩
  · simp [updateApplicationStatus, hfind, hvalid]
  · exact List.length_map apps _
  · intro a ha haid
    rcases List.mem_map.mp ha with ⟨b, hb, rfl⟩
    by_cases hcond : (b.aid == aid) = true
    · simp [hcond]
    · rw [if_neg hcond] at haid ⊢
      exact (hcond (beq_iff_eq.mpr haid)).elim

/-- C1 witness: the amended theorem applied to the counterexample input. -/
theorem c1_amended_witness :
    ∃ apps', updateApplicationStatus [⟨1, 10, 20, "accepted"⟩] 1 "rejected" =
        UpdateStatusResult.ok apps'
          (("rejected" == "accepted") || ("rejected" == "rejected")) ∧
      apps'.length = [(⟨1, 10, 20, "accepted"⟩ : Application)].length ∧
      ∀ a ∈ apps', a.aid = 1 → a.status = "rejected" :=
  c1_amended [⟨1, 10, 20, "accepted"⟩] 1 "rejected" ⟨1, 10, 20, "accepted"⟩
    (by decide) (by decide)

/-- C2: when a university creates an event, every student whose interest set
contains that university receives exactly one notification, of type
`new_event`, referencing the event; a student without that interest receives
none.  The hypothesis is the database invariant that student ids are
unique. -/
theorem c2 (students : List Student) (base now : Nat) (event : Event)
    (university : University)
    (hnodup : (students.map (fun s => s.sid)).Nodup)
    (stu : Student) (hmem : stu ∈ students) :
    ((notifyNewEvent students base now event university).countP
        (fun n => n.recipientId == stu.sid)) =
      (if university.uivid ∈ stu.interestedUniversities then 1 else 0) ∧
    (∀ n ∈ notifyNewEvent students base now event university,
      n.ntype = "new_event" ∧ n.dataEventId = some event.eid ∧
        n.recipientType = "Student") := by
  have hcontains : ∀ s : Student,
      (s.interestedUniversities.contains university.uivid = true) ↔
        university.uivid ∈ s.interestedUniversities := by
    intro s; simp
  by_cases hlen :
      (students.filter
        (fun s => s.interestedUniversities.contains university.uivid)).length
        = 0
  · have hfilter := List.length_eq_zero.mp hlen
    have hnotmem : university.uivid ∉ stu.interestedUniversities := by
      intro hm
      have hstu : stu ∈ students.filter
          (fun s => s.interestedUniversities.contains university.uivid) :=
        List.mem_filter.mpr ⟨hmem, (hcontains stu).mpr hm⟩
      rw [hfilter] at hstu
      simp at hstu
    constructor
    · simp only [notifyNewEvent]
      rw [if_pos hlen, if_neg hnotmem]
      rfl
    · intro n hn
      simp only [notifyNewEvent] at hn
      rw [if_pos hlen] at hn
      simp at hn
  · constructor
    · simp only [notifyNewEvent]
      rw [if_neg hlen, sendToMultipleUsers_countP, List.countP_map]
      have hc := countP_filter_sid
        (fun s => s.interestedUniversities.contains university.uivid)
        students stu hnodup hmem
      rw [show ((fun r => r == stu.sid) ∘ fun s : Student => s.sid) =
          (fun s : Student => s.sid == stu.sid) from rfl, hc]
      by_cases hm : university.uivid ∈ stu.interestedUniversities
      · rw [if_pos ((hcontains stu).mpr hm), if_pos hm]
      · rw [if_neg (fun hh => hm ((hcontains stu).mp hh)), if_neg hm]
    · intro n hn
      simp only [notifyNewEvent] at hn
      rw [if_neg hlen] at hn
      have hprops := sendToMultipleUsers_mem now "Student" _ _ base n hn
      simpa using hprops

/-- C2 witness: one interested student and one uninterested student; the
interested one receives exactly one `new_event` notification referencing the
event. -/
theorem c2_witness :
    ((notifyNewEvent [⟨1, "Ann", [5]⟩, ⟨2, "Bob", []⟩] 100 3 ⟨7, 5, "Expo"⟩
        ⟨5, "TSU"⟩).countP (fun n => n.recipientId == 1)) =
      (if (5 : Nat) ∈ ([5] : List Nat) then 1 else 0) ∧
    (∀ n ∈ notifyNewEvent [⟨1, "Ann", [5]⟩, ⟨2, "Bob", []⟩] 100 3
        ⟨7, 5, "Expo"⟩ ⟨5, "TSU"⟩,
      n.ntype = "new_event" ∧ n.dataEventId = some 7 ∧
        n.recipientType = "Student") :=
  c2 [⟨1, "Ann", [5]⟩, ⟨2, "Bob", []⟩] 100 3 ⟨7, 5, "Expo"⟩ ⟨5, "TSU"⟩
    (by decide) ⟨1, "Ann", [5]⟩ (by decide)

/-- C3: mark-one-read (socket and HTTP) and mark-all-read (socket and HTTP)
keep the store's length (no record created or deleted), change no field
other than the read flag of any record, and are idempotent. -/
theorem c3 (notificationId userId callerId : Nat) :
    ReadOnlyIdem (fun s => socketMarkRead s notificationId) ∧
    ReadOnlyIdem (fun s => httpMarkRead s notificationId callerId) ∧
    ReadOnlyIdem (fun s => socketMarkAllRead s userId) ∧
    ReadOnlyIdem (fun s => httpMarkAllRead s callerId) := by
  refine ⟨?_, ?_, ?_, ?_⟩
  · exact updateFirst_readOnlyIdem (fun n => n.nid == notificationId)
      (fun n => rfl)
  · exact updateFirst_readOnlyIdem
      (fun n => n.nid == notificationId && n.recipientId == callerId)
      (fun n => rfl)
  · exact markAllMap_readOnlyIdem userId
  · exact markAllMap_readOnlyIdem callerId

/-- C4: the unread count returned by the listing operation equals the number
of persisted notifications for that recipient with the read flag unset, for
every page, limit and unreadOnly combination, and coincides with the
dedicated unread-count route. -/
theorem c4 (store : List Notification) (userId page limit : Nat)
    (unreadOnly : Bool) :
    (getUserNotifications store userId page limit unreadOnly).unreadCount =
      store.countP (fun n => n.recipientId == userId && n.isRead == false) ∧
    (getUserNotifications store userId page limit unreadOnly).unreadCount =
      unreadCountRoute store userId := by
  constructor
  · simp [getUserNotifications, List.countP_eq_length_filter]
  · rfl

/-- C5 counterexample: an inactive account with the correct password fails
with the distinct 401 "Account is deactivated" error, not with
"Invalid credentials" as the claim states. -/
theorem c5_counterexample :
    login (fun p h => p == h)
        [⟨1, "a@b.c", some "pw", none, "Ann", "", "user", false⟩]
        "a@b.c" "pw" = LoginResult.accountDeactivated ∧
    LoginResult.accountDeactivated ≠ LoginResult.invalidCredentials := by
  constructor
  · decide
  · decide

/-- C5 (amended): given non-empty email and password, login fails with
`InvalidCredentials` exactly when the account is absent, has no stored
password hash, or is active with a non-matching password; an inactive
account that has a password hash fails with the distinct
`AccountDeactivated` 401 error; otherwise login succeeds and returns the
account. -/
theorem c5_amended (bc : String → String → Bool) (users : List User)
    (email password : String) (he : email ≠ "") (hp : password ≠ "") :
    (∀ u : User, login bc users email password = LoginResult.ok u ↔
      accountFor users email = some u ∧ u.isActive = true ∧
        storedHashMatches bc password u = true) ∧
    (login bc users email password = LoginResult.accountDeactivated ↔
      ∃ u, accountFor users email = some u ∧ u.passwordHash ≠ none ∧
        u.isActive = false) ∧
    (login bc users email password = LoginResult.invalidCredentials ↔
      accountFor users email = none ∨
        ∃ u, accountFor users email = some u ∧
          (u.passwordHash = none ∨
            (u.isActive = true ∧ storedHashMatches bc password u = false))) := by
  have he' : (email == "") = false := beq_eq_false_iff_ne.mpr he
  have hp' : (password == "") = false := beq_eq_false_iff_ne.mpr hp
  cases hfind : users.find? (fun u => u.email == email) with
  | none =>
    simp [login, accountFor, he', hp', hfind, storedHashMatches]
  | some u =>
    cases hph : u.passwordHash with
    | none =>
      simp [login, accountFor, he', hp', hfind, hph, storedHashMatches]
    | some h =>
      cases hact : u.isActive <;> cases hbc : bc password h <;>
        simp [login, accountFor, he', hp', hfind, hph, hact, hbc,
          storedHashMatches]

/-- C5 witness: the amended theorem's success characterization applied to a
concrete active account with a matching password. -/
theorem c5_amended_witness :
    ("a@b.c" : String) ≠ "" ∧ ("pw" : String) ≠ "" ∧
    (login (fun p h => p == h)
        [⟨1, "a@b.c", some "pw", none, "Ann", "", "user", true⟩]
        "a@b.c" "pw" =
        LoginResult.ok ⟨1, "a@b.c", some "pw", none, "Ann", "", "user", true⟩ ↔
      accountFor [⟨1, "a@b.c", some "pw", none, "Ann", "", "user", true⟩]
          "a@b.c" =
          some ⟨1, "a@b.c", some "pw", none, "Ann", "", "user", true⟩ ∧
        (⟨1, "a@b.c", some "pw", none, "Ann", "", "user", true⟩ : User).isActive
            = true ∧
        storedHashMatches (fun p h => p == h) "pw"
          ⟨1, "a@b.c", some "pw", none, "Ann", "", "user", true⟩ = true) :=
  ⟨by decide, by decide,
    (c5_amended (fun p h => p == h)
        [⟨1, "a@b.c", some "pw", none, "Ann", "", "user", true⟩] "a@b.c" "pw"
        (by decide) (by decide)).1
      ⟨1, "a@b.c", some "pw", none, "Ann", "", "user", true⟩⟩

/-- C6: for every token, session verification is total: it returns either a
decoded payload (and the protected route runs its handler) or `none` (and
the route responds 401 with the state unchanged).  It never throws: the
wrapper catches every library exception. -/
theorem c6 (σ : Type) (jwtVerify : String → Except String JwtPayload)
    (token : String) (handler : JwtPayload → σ → σ × Nat) (s : σ) :
    (∃ p, verifyToken jwtVerify token = some p ∧
      runProtected jwtVerify token handler s = handler p s) ∨
    (verifyToken jwtVerify token = none ∧
      runProtected jwtVerify token handler s = (s, 401)) := by
  cases h : jwtVerify token with
  | ok p =>
    exact Or.inl ⟨p, by simp [verifyToken, h],
      by simp [runProtected, verifyToken, h]⟩
  | error e =>
    exact Or.inr ⟨by simp [verifyToken, h],
      by simp [runProtected, verifyToken, h]⟩

/-- C7 counterexample: in a `test` environment — not development — the
cookie's secure flag is off, because the source enables it only when the
environment is exactly `production`. -/
theorem c7_counterexample :
    (sendTokenCookie "test").secure = false ∧
    ("test" : String) ≠ "development" := by
  constructor
  · decide
  · decide

/-- C7 (amended): every session cookie is HTTP-only, expires after 7 days,
uses same-site lax, and has its secure flag enabled exactly when the
environment is `production` (so it is disabled in every other environment,
not merely in development). -/
theorem c7_amended (env : String) :
    (sendTokenCookie env).httpOnly = true ∧
    (sendTokenCookie env).maxAge = 7 * 24 * 60 * 60 * 1000 ∧
    (sendTokenCookie env).sameSite = "lax" ∧
    ((sendTokenCookie env).secure = true ↔ env = "production") := by
  refine ⟨rfl, rfl, rfl, ?_⟩
  simp [sendTokenCookie]

/-- C8: a successful `updateProfile` changes at most the name and bio of the
caller's own account: every account keeps its uid, email, password hash,
google id, role and active flag, and accounts other than the caller's are
untouched entirely, whatever fields the request body supplies. -/
theorem c8 (users : List User) (callerId : Nat) (body : ProfileBody)
    (users' : List User)
    (h : updateProfile users callerId body = some users') :
    List.Forall₂ (fun u u' =>
      u'.uid = u.uid ∧ u'.email = u.email ∧
      u'.passwordHash = u.passwordHash ∧ u'.googleId = u.googleId ∧
      u'.role = u.role ∧ u'.isActive = u.isActive ∧
      (u.uid ≠ callerId → u' = u)) users users' := by
  unfold updateProfile at h
  cases hfind : users.find? (fun u => u.uid == callerId) with
  | none => rw [hfind] at h; exact absurd h (by simp)
  | some u0 =>
    rw [hfind] at h
    have husers' : users' = users.map (fun u =>
        if u.uid == callerId then applyProfileUpdate u body else u) := by
      exact (Option.some.injEq _ _ ▸ h).symm
    subst husers'
    rw [List.forall₂_map_right_iff]
    refine List.forall₂_same.mpr fun u _ => ?_
    by_cases hc : (u.uid == callerId) = true
    · rw [if_pos hc]
      have hf := applyProfileUpdate_frame u body
      exact ⟨hf.1, hf.2.1, hf.2.2.1, hf.2.2.2.1, hf.2.2.2.2.1, hf.2.2.2.2.2,
        fun hne => (hne (beq_iff_eq.mp hc)).elim⟩
    · rw [if_neg hc]
      exact ⟨rfl, rfl, rfl, rfl, rfl, rfl, fun _ => rfl⟩

/-- C8 witness: a request that supplies name, bio and also email, role,
passwordHash and isActive changes only name and bio. -/
theorem c8_witness :
    updateProfile [⟨1, "a@b.c", some "H", some "g", "Ann", "", "user", true⟩] 1
        ⟨some "New", some "b!", some "evil@x", some "admin", some "X",
          some false⟩ =
      some [⟨1, "a@b.c", some "H", some "g", "New", "b!", "user", true⟩] ∧
    List.Forall₂ (fun u u' : User =>
      u'.uid = u.uid ∧ u'.email = u.email ∧
      u'.passwordHash = u.passwordHash ∧ u'.googleId = u.googleId ∧
      u'.role = u.role ∧ u'.isActive = u.isActive ∧
      (u.uid ≠ 1 → u' = u))
      [⟨1, "a@b.c", some "H", some "g", "Ann", "", "user", true⟩]
      [⟨1, "a@b.c", some "H", some "g", "New", "b!", "user", true⟩] :=
  ⟨by decide,
    c8 [⟨1, "a@b.c", some "H", some "g", "Ann", "", "user", true⟩] 1
      ⟨some "New", some "b!", some "evil@x", some "admin", some "X",
        some false⟩
      [⟨1, "a@b.c", some "H", some "g", "New", "b!", "user", true⟩]
      (by decide)⟩

/-- C9: the socket `notification:read` handler marks the notification with
the given id as read with no precondition relating the connected identity to
the notification's recipient (the caller does not even occur in its filter),
whereas the HTTP mark-one-read route never modifies a notification whose
recipient is not the caller. -/
theorem c9 (store : List Notification) (notificationId callerId : Nat)
    (n : Notification)
    (hfind : store.find? (fun x => x.nid == notificationId) = some n) :
    setRead n ∈ socketMarkRead store notificationId ∧
    List.Forall₂ (fun a b => a.recipientId ≠ callerId → b = a) store
      (httpMarkRead store notificationId callerId) := by
  refine ⟨mem_updateFirst_of_find? _ _ _ hfind, ?_⟩
  refine (updateFirst_spec _ store).imp ?_
  intro a b hab hne
  rcases hab with rfl | ⟨_, hq⟩
  · rfl
  · exact (hne (beq_iff_eq.mp ((Bool.and_eq_true _ _).mp hq).2)).elim

/-- C9 witness: a notification whose recipient (42) differs from the caller
(99) is still marked read by the socket handler, while the HTTP route leaves
every notification not owned by the caller unchanged. -/
theorem c9_witness :
    setRead ⟨1, 42, "Student", "new_event", "t", "m", none, none, none, none,
        false, 0⟩ ∈
      socketMarkRead [⟨1, 42, "Student", "new_event", "t", "m", none, none,
        none, none, false, 0⟩] 1 ∧
    List.Forall₂ (fun a b : Notification => a.recipientId ≠ 99 → b = a)
      [⟨1, 42, "Student", "new_event", "t", "m", none, none, none, none,
        false, 0⟩]
      (httpMarkRead [⟨1, 42, "Student", "new_event", "t", "m", none, none,
        none, none, false, 0⟩] 1 99) :=
  c9 [⟨1, 42, "Student", "new_event", "t", "m", none, none, none, none,
      false, 0⟩] 1 99
    ⟨1, 42, "Student", "new_event", "t", "m", none, none, none, none,
      false, 0⟩
    (by decide)

/-- C10: the user serialization used in API responses (the model's `toJSON`)
carries no `passwordHash` and no `__v` key, for every user document
including those with a stored password hash. -/
theorem c10 (u : User) (v : Nat) (kv : String × JVal)
    (h : kv ∈ userToJSON u v) :
    kv.1 ≠ "passwordHash" ∧ kv.1 ≠ "__v" := by
  have hpred := (List.mem_filter.mp h).2
  have hsplit := (Bool.and_eq_true _ _).mp hpred
  constructor
  · intro hk
    rw [hk] at hsplit
    simp at hsplit
  · intro hk
    rw [hk] at hsplit
    simp at hsplit

/-- C10 witness: the email key of a serialized account that does store a
password hash; the serialization contains it and it is neither stripped
key. -/
theorem c10_witness :
    (("email", JVal.s "a@b.c") ∈
      userToJSON ⟨1, "a@b.c", some "H", none, "A", "", "user", true⟩ 0) ∧
    (("email", JVal.s "a@b.c") : String × JVal).1 ≠ "passwordHash" ∧
    (("email", JVal.s "a@b.c") : String × JVal).1 ≠ "__v" :=
  ⟨by decide,
    c10 ⟨1, "a@b.c", some "H", none, "A", "", "user", true⟩ 0
      ("email", JVal.s "a@b.c") (by decide)⟩

end Conevent
